import Mathlib

/-!
Shallow embedding of the bacalhau publishing pipeline fragments:
the Estuary publisher and pinner (pkg/publisher/estuary), the IPFS
HTTP client address helpers (pkg/ipfs/http/httpclient.go) and the
dashboard map builder (dashboard/api/main.go).

External collaborators (net/url parsing, HTTP transport, the JSON
decoder, the swarm/key lookups and the random source) are modelled as
explicit parameters; everything the repository code itself does is
translated step for step.
-/

namespace estuary

/-- Model of a parsed `url.URL` by its rendered string.  The zero value
of `url.URL` renders as the empty string. -/
abbrev GoURL := String

/-- The zero `url.URL` value produced by `make([]url.URL, n)`. -/
def zeroURL : GoURL := ""

/-- The fields of `model.StorageSpec` used by this package. -/
structure StorageSpec where
  CID : String
  Name : String
deriving DecidableEq, Repr

/-- Partial results from the Estuary config API endpoint
(`EstuaryAPIConfig`); the nested `Settings` struct is flattened. -/
structure EstuaryAPIConfig where
  contentAddingDisabled : Bool
  uploadEndpoints : List String
deriving DecidableEq, Repr

/-- The loop at the end of `getWriteAPIURLs`: the slice is created
pre-sized with `make([]url.URL, len(endpoints))` (all zero values) and
each endpoint that `url.Parse` accepts is then appended; a malformed
endpoint is logged and skipped.  `parse` stands for `url.Parse`
restricted to its success/failure outcome. -/
def buildUploadURLs (parse : String → Option GoURL) (endpoints : List String) : List GoURL :=
  List.replicate endpoints.length zeroURL ++ endpoints.filterMap parse

/-- The request URL built by `getWriteAPIURLs` for the config fetch:
when the `BACALHAU_ESTUARY_WRITE_API_URL` override is set no request is
built at all, otherwise the GET goes to `client.Server + "/viewier"`
(the literal string in the source). -/
def getWriteAPIURLsRequestURL (env : String) (server : String) : Option String :=
  if env ≠ "" then none else some (server ++ "/viewier")

/-- `getWriteAPIURLs`: the env override, when set, is parsed and
returned as a singleton list; otherwise the config endpoint is
consulted (`fetch` abstracts the GET, the body read and the JSON
decode), uploads-disabled is fatal, and the URL list is built by
`buildUploadURLs`. -/
def getWriteAPIURLs (env : String) (parse : String → Option GoURL)
    (fetch : Except String EstuaryAPIConfig) : Except String (List GoURL) :=
  if env ≠ "" then
    match parse env with
    | some u => Except.ok [u]
    | none => Except.error "error parsing the env-defined Estuary upload host"
  else
    match fetch with
    | Except.error e => Except.error e
    | Except.ok config =>
      if config.contentAddingDisabled then
        Except.error "cannot upload content because Estuary uploads are disabled"
      else
        Except.ok (buildUploadURLs parse config.uploadEndpoints)

/-- The body read in `getWriteAPIURLs`: a buffer of `ContentLength`
bytes is allocated and filled by a single `Body.Read` call; the call
errors out when that single read returns fewer bytes.  The body stream
is modelled as the list of chunks successive `Read` calls would
deliver; a single `Read` returns (a prefix of) the first chunk. -/
def readConfigResponseBody (contentLength : Nat) (chunks : List (List Nat)) : Except String (List Nat) :=
  let firstRead := (chunks.headD []).take contentLength
  let bytesRead := firstRead.length
  if bytesRead = contentLength then
    Except.ok firstRead
  else
    Except.error ("read " ++ toString bytesRead ++ " bytes but expected " ++ toString contentLength)

/-- Outcome of one loop iteration of `EstuaryPublisher.PublishShardResult`
for one shuttle client: the fresh `os.Open` of the CAR file may fail,
and the `PostContentAddCarWithBodyWithResponse` call either returns a
transport error or completes with some HTTP status. -/
inductive UploadAttempt where
  | openErr (msg : String)
  | postErr (msg : String)
  | postResponse (status : Nat)
deriving DecidableEq, Repr

/-- The endpoint walk of `EstuaryPublisher.PublishShardResult`: an
`os.Open` failure aborts with that error; a transport error is logged
and the next client is tried; a completed POST returns the published
spec at once (the response, and with it the HTTP status, is discarded
by the source); an exhausted list is the all-hosts failure. -/
def tryHosts (spec : StorageSpec) : List UploadAttempt → Except String StorageSpec
  | [] => Except.error "failed to upload to any Estuary host"
  | UploadAttempt.openErr m :: _ => Except.error m
  | UploadAttempt.postErr _ :: rest => tryHosts spec rest
  | UploadAttempt.postResponse _ :: _ => Except.ok spec

/-- Whether an HTTP status code is a 2xx success. -/
def is2xx (status : Nat) : Bool := 200 ≤ status && status < 300

/-- One `swap(i, j)` callback invocation of `rand.Shuffle` on the URL
slice; indices outside the slice leave it unchanged (they never occur
in `rand.Shuffle`). -/
def swapIdx {α : Type} (l : List α) (i j : Nat) : List α :=
  if h : i < l.length ∧ j < l.length then
    (l.set i (l.get ⟨j, h.2⟩)).set j (l.get ⟨i, h.1⟩)
  else l

/-- The loop of `rand.Shuffle`: for `i` from `n-1` down to `1`, pick
`j = choose i ∈ [0, i]` and swap positions `i` and `j`.  `choose`
abstracts the pseudo-random source, fresh per call. -/
def shuffleDown {α : Type} (choose : Nat → Nat) : List α → Nat → List α
  | l, 0 => l
  | l, Nat.succ i => shuffleDown choose (swapIdx l (Nat.succ i) (choose (Nat.succ i))) i

/-- `rand.Shuffle(len(l), swap)` over the upload URL list. -/
def randShuffle {α : Type} (choose : Nat → Nat) (l : List α) : List α :=
  shuffleDown choose l (l.length - 1)

/-- `GetShuttleClients` after fetching `uploadURLs`: the list is
shuffled in place and one client is then built per shuffled URL, in
order.  The clients are represented by the URLs they are built from. -/
def getShuttleClientURLs (choose : Nat → Nat) (uploadURLs : List GoURL) : List GoURL :=
  randShuffle choose uploadURLs

/-- Observable effects of the detached pin goroutine in
`EstuaryPinner.PublishShardResult`. -/
structure PinTaskTrace where
  /-- the Error-level log emitted when the spec has an empty CID or name -/
  emptySpecErrorLogged : Bool
  /-- whether `PostPinningPinsWithResponse` was called -/
  postIssued : Bool
  /-- `success := response.StatusCode() == http.StatusAccepted && err == nil` -/
  pinSucceeded : Bool
  /-- the final "Attempted to pin" log is at Error level exactly when not successful -/
  finalLogLevelIsError : Bool
deriving DecidableEq, Repr

/-- The body of the pin goroutine: the empty-CID/name check only logs
(there is no early return), the pin POST is issued unconditionally, and
the outcome is logged at Info or Error level depending on success.
`pinStatus`/`pinErr` abstract the response of the external pinning
service. -/
def pinTask (spec : StorageSpec) (pinStatus : Nat) (pinErr : Option String) : PinTaskTrace :=
  let success := pinStatus == 202 && pinErr.isNone
  { emptySpecErrorLogged := spec.CID == "" || spec.Name == ""
    postIssued := true
    pinSucceeded := success
    finalLogLevelIsError := !success }

/-- `EstuaryPinner.PublishShardResult`: the inner (IPFS) publish result
is a Go-style `(spec, err)` pair; on error it is returned as-is and no
goroutine is spawned; on success the pin goroutine is spawned and the
pair `(spec, nil)` is returned.  The second component of the result is
the trace of the detached pin task, if one was spawned. -/
def pinnerPublishShardResult (inner : StorageSpec × Option String)
    (pinStatus : Nat) (pinErr : Option String) :
    (StorageSpec × Option String) × Option PinTaskTrace :=
  match inner with
  | (spec, some e) => ((spec, some e), none)
  | (spec, none) => ((spec, none), some (pinTask spec pinStatus pinErr))

/-- A stand-in for `url.Parse` on inputs where it succeeds (it accepts
almost every string); used to evaluate the model at concrete inputs. -/
def parseId : String → Option GoURL := fun s => some s

/-- A concrete failing config fetch, for concrete evaluation. -/
def fetchFail : Except String EstuaryAPIConfig := Except.error "network error"

/-- A concrete successful config fetch with no endpoints, for concrete
evaluation. -/
def fetchEmpty : Except String EstuaryAPIConfig :=
  Except.ok { contentAddingDisabled := false, uploadEndpoints := [] }

end estuary

namespace ipfsHttp

/-- `GetLocalAddrStrings`: the swarm lookup (`GetLocalAddrs`) either
fails or yields a list of multiaddresses (modelled by their rendered
strings).  On failure the empty accumulator is returned with a nil
error; on success every address is appended and the error is nil. -/
def getLocalAddrStrings (localAddrs : Except String (List String)) : List String × Option String :=
  match localAddrs with
  | Except.error _ => ([], none)
  | Except.ok addrs => (addrs, none)

/-- `GetPeerId`: the key lookup (`Api.Key().Self`) either fails, giving
`("", err)`, or yields the peer id string. -/
def getPeerId (keySelf : Except String String) : String × Option String :=
  match keySelf with
  | Except.error e => ("", some e)
  | Except.ok id => (id, none)

/-- `GetSwarmAddresses`: errors from `GetLocalAddrStrings` and
`GetPeerId` both short-circuit to `(addressStrings, nil)` with the
accumulator still empty; otherwise each address is suffixed with
`"/p2p/" + peerId`. -/
def getSwarmAddresses (localAddrs : Except String (List String))
    (keySelf : Except String String) : List String × Option String :=
  match (getLocalAddrStrings localAddrs).2 with
  | some _ => ([], none)
  | none =>
    match (getPeerId keySelf).2 with
    | some _ => ([], none)
    | none =>
      ((getLocalAddrStrings localAddrs).1.map
        (fun a => a ++ "/p2p/" ++ (getPeerId keySelf).1), none)

end ipfsHttp

namespace dashboard

/-- `Node` of the dashboard map result. -/
structure Node where
  id : String
  group : Nat
deriving DecidableEq, Repr

/-- `Link` of the dashboard map result. -/
structure Link where
  source : String
  target : String
deriving DecidableEq, Repr

/-- `Result` of the dashboard map: nodes and links. -/
structure Result where
  nodes : List Node
  links : List Link
deriving DecidableEq, Repr

/-- `updateResult`: the map keys are collected (in whatever order the
Go map yields them, here the order of `keys`), sorted, and then each
key contributes one node and one link per target in its entry.
`theMap` is the map as a lookup function. -/
def updateResult (keys : List String) (theMap : String → List String) : Result :=
  let sortedKeys := List.insertionSort (fun a b => a ≤ b) keys
  { nodes := sortedKeys.map (fun k => { id := k, group := 0 }),
    links := sortedKeys.flatMap (fun k => (theMap k).map (fun t => { source := k, target := t })) }

/-- A concrete peer map for concrete evaluation. -/
def sampleMap : String → List String := fun k => if k = "b" then ["x", "y"] else []

end dashboard

namespace estuary

/-- Moving the element at index `k` to the front while writing `a` into
its slot permutes a cons cell onto the front: the key step of a
position swap. -/
theorem cons_set_perm {α : Type} (a b : α) :
    ∀ (xs : List α) (k : Nat), xs[k]? = some b → List.Perm (b :: xs.set k a) (a :: xs) := by
  intro xs
  induction xs with
  | nil => intro k h; simp at h
  | cons y ys ih =>
    intro k h
    cases k with
    | zero =>
      rw [List.getElem?_cons_zero, Option.some_inj] at h
      subst h
      simpa using List.Perm.swap a y ys
    | succ m =>
      rw [List.getElem?_cons_succ] at h
      have h1 : List.Perm (b :: y :: ys.set m a) (y :: b :: ys.set m a) :=
        List.Perm.swap y b (ys.set m a)
      have h2 : List.Perm (y :: b :: ys.set m a) (y :: a :: ys) :=
        List.Perm.cons y (ih m h)
      have h3 : List.Perm (y :: a :: ys) (a :: y :: ys) := List.Perm.swap a y ys
      simpa using h1.trans (h2.trans h3)

/-- Writing each of two occupied positions with the other's value is a
permutation. -/
theorem set_set_perm {α : Type} :
    ∀ (l : List α) (i j : Nat) (a b : α), l[i]? = some a → l[j]? = some b →
      List.Perm ((l.set i b).set j a) l := by
  intro l
  induction l with
  | nil => intro i j a b hi _; simp at hi
  | cons x xs ih =>
    intro i j a b hi hj
    cases i with
    | zero =>
      rw [List.getElem?_cons_zero, Option.some_inj] at hi
      subst hi
      cases j with
      | zero =>
        rw [List.getElem?_cons_zero, Option.some_inj] at hj
        subst hj
        simp
      | succ m =>
        rw [List.getElem?_cons_succ] at hj
        simpa using cons_set_perm x b xs m hj
    | succ k =>
      rw [List.getElem?_cons_succ] at hi
      cases j with
      | zero =>
        rw [List.getElem?_cons_zero, Option.some_inj] at hj
        subst hj
        simpa using cons_set_perm x a xs k hi
      | succ m =>
        rw [List.getElem?_cons_succ] at hj
        simpa using List.Perm.cons x (ih k m a b hi hj)

/-- A single `swap` callback of the shuffle permutes the list. -/
theorem swapIdx_perm {α : Type} (l : List α) (i j : Nat) : List.Perm (swapIdx l i j) l := by
  unfold swapIdx
  split
  case isTrue h =>
    exact set_set_perm l i j (l.get ⟨i, h.1⟩) (l.get ⟨j, h.2⟩)
      (by simp [List.getElem?_eq_getElem h.1]) (by simp [List.getElem?_eq_getElem h.2])
  case isFalse h => exact List.Perm.refl l

/-- Every run of the shuffle loop permutes the list. -/
theorem shuffleDown_perm {α : Type} (choose : Nat → Nat) :
    ∀ (n : Nat) (l : List α), List.Perm (shuffleDown choose l n) l := by
  intro n
  induction n with
  | zero => intro l; exact List.Perm.refl l
  | succ i ih =>
    intro l
    exact (ih _).trans (swapIdx_perm l (i + 1) (choose (i + 1)))

/-- `randShuffle` permutes its input. -/
theorem randShuffle_perm {α : Type} (choose : Nat → Nat) (l : List α) :
    List.Perm (randShuffle choose l) l :=
  shuffleDown_perm choose (l.length - 1) l

/-- Claim C5: on every call, `GetShuttleClients` applies the (fresh,
here arbitrary) pseudo-random shuffle to the fetched endpoint list
before building clients, and the shuffled list is a permutation of the
fetched list: the same multiset, so every endpoint is retained with
its exact multiplicity. -/
theorem shuttle_urls_perm (choose : Nat → Nat) (urls : List GoURL) :
    List.Perm (getShuttleClientURLs choose urls) urls
    ∧ (getShuttleClientURLs choose urls : Multiset GoURL) = (urls : Multiset GoURL)
    ∧ ∀ u : GoURL, Multiset.count u (getShuttleClientURLs choose urls : Multiset GoURL) =
        Multiset.count u (urls : Multiset GoURL) := by
  have hp := randShuffle_perm choose urls
  have hm : (getShuttleClientURLs choose urls : Multiset GoURL) = (urls : Multiset GoURL) :=
    Multiset.coe_eq_coe.mpr hp
  refine ⟨hp, hm, ?_⟩
  intro u
  rw [hm]

/-- Claim C1 (code bug): when the primary publish succeeds with a spec
whose CID is empty, the detached pin task does log at Error level, but
it still issues the pinning POST — the empty-spec check has no early
return. -/
theorem pinner_empty_cid_still_posts :
    (pinnerPublishShardResult ({ CID := "", Name := "shard-results" }, none) 202 none).2 =
      some { emptySpecErrorLogged := true, postIssued := true,
             pinSucceeded := true, finalLogLevelIsError := false } := by
  rfl

/-- Claim C2 (code bug): the endpoint walk of
`EstuaryPublisher.PublishShardResult` returns a successful published
spec for the first attempt whose POST completes without a transport
error, even when its HTTP status is 500 — the response status is
discarded, so a non-2xx attempt is not retried on the next endpoint. -/
theorem upload_non2xx_treated_as_success :
    tryHosts { CID := "QmResults", Name := "shard-results" }
        [UploadAttempt.postResponse 500, UploadAttempt.postResponse 200] =
      Except.ok { CID := "QmResults", Name := "shard-results" }
    ∧ is2xx 500 = false := by
  exact ⟨rfl, by decide⟩

/-- Claim C3 (code bug): with one well-formed endpoint in the config
response, `getWriteAPIURLs` returns a two-element list whose first
entry is the zero-valued URL left over from the pre-sized slice, not
exactly the list of successfully parsed endpoints. -/
theorem write_api_urls_zero_entries :
    getWriteAPIURLs "" parseId
        (Except.ok { contentAddingDisabled := false, uploadEndpoints := ["http://a.example"] }) =
      Except.ok [zeroURL, "http://a.example"]
    ∧ ([zeroURL, "http://a.example"] : List GoURL) ≠ ["http://a.example"] := by
  exact ⟨rfl, by decide⟩

/-- Claim C4, counterexample: with the override unset, the config
fetch of `getWriteAPIURLs` is addressed to the path `/viewier`, not
`/viewer`, on the gateway base URL. -/
theorem config_request_path_not_viewer :
    getWriteAPIURLsRequestURL "" "https://api.estuary.tech" =
      some "https://api.estuary.tech/viewier"
    ∧ getWriteAPIURLsRequestURL "" "https://api.estuary.tech" ≠
      some "https://api.estuary.tech/viewer" := by
  exact ⟨rfl, by decide⟩

/-- Claim C4, amended: whenever the upload-target override environment
variable is not set, the upload configuration is fetched with an HTTP
GET whose request path is `/viewier` appended to the gateway base
URL. -/
theorem config_request_path_is_viewier (server : String) :
    getWriteAPIURLsRequestURL "" server = some (server ++ "/viewier") := by
  simp [getWriteAPIURLsRequestURL]

/-- Claim C6: when the write-API-URL override is set and parses, the
returned upload-target list is exactly that single URL, the result does
not depend on the config fetch, and no config request is built. -/
theorem env_override_single_url (env server : String) (parse : String → Option GoURL)
    (fetch fetch2 : Except String EstuaryAPIConfig) (u : GoURL)
    (henv : env ≠ "") (hparse : parse env = some u) :
    getWriteAPIURLs env parse fetch = Except.ok [u]
    ∧ getWriteAPIURLs env parse fetch = getWriteAPIURLs env parse fetch2
    ∧ getWriteAPIURLsRequestURL env server = none := by
  simp [getWriteAPIURLs, getWriteAPIURLsRequestURL, henv, hparse]

/-- Witness for claim C6 at a concrete override URL and two different
fetch outcomes. -/
theorem env_override_single_url_witness :
    (("http://upload.example" : String) ≠ "")
    ∧ parseId "http://upload.example" = some "http://upload.example"
    ∧ (getWriteAPIURLs "http://upload.example" parseId fetchFail =
          Except.ok ["http://upload.example"]
      ∧ getWriteAPIURLs "http://upload.example" parseId fetchFail =
          getWriteAPIURLs "http://upload.example" parseId fetchEmpty
      ∧ getWriteAPIURLsRequestURL "http://upload.example" "https://api.estuary.tech" = none) :=
  ⟨by decide, rfl,
    env_override_single_url "http://upload.example" "https://api.estuary.tech" parseId
      fetchFail fetchEmpty "http://upload.example" (by decide) rfl⟩

/-- Claim C7: `EstuaryPinner.PublishShardResult` returns the inner
publisher's `(spec, err)` pair unchanged — on success and on failure —
and the returned publish outcome does not depend on the detached pin
attempt's response at all. -/
theorem pinner_preserves_publish_outcome (inner : StorageSpec × Option String)
    (s1 : Nat) (e1 : Option String) (s2 : Nat) (e2 : Option String) :
    (pinnerPublishShardResult inner s1 e1).1 = inner
    ∧ (pinnerPublishShardResult inner s1 e1).1 = (pinnerPublishShardResult inner s2 e2).1 := by
  obtain ⟨spec, err⟩ := inner
  cases err <;> simp [pinnerPublishShardResult]

/-- Claim C8 (code bug): for a well-formed response of Content-Length 6
whose body arrives in chunks of 2 and 4 bytes, the single sized `Read`
in `getWriteAPIURLs` sees only the first 2 bytes and the function fails
with a short-read error even though the full body was available. -/
theorem config_body_short_read_fails :
    readConfigResponseBody 6 [[1, 2], [3, 4, 5, 6]] =
      Except.error "read 2 bytes but expected 6"
    ∧ ([[1, 2], [3, 4, 5, 6]] : List (List Nat)).flatten.length = 6 := by
  exact ⟨rfl, by decide⟩

end estuary

namespace ipfsHttp

/-- Claim C9: `GetLocalAddrStrings` and `GetSwarmAddresses` never
return a non-nil error — any failure of the swarm or key lookup yields
the (empty) accumulator with a nil error, indistinguishable from a node
that genuinely has no addresses. -/
theorem swarm_lookup_errors_swallowed (localAddrs : Except String (List String))
    (keySelf : Except String String) (e : String) :
    (getLocalAddrStrings localAddrs).2 = none
    ∧ (getSwarmAddresses localAddrs keySelf).2 = none
    ∧ getLocalAddrStrings (Except.error e) = getLocalAddrStrings (Except.ok [])
    ∧ getSwarmAddresses (Except.error e) keySelf =
        getSwarmAddresses (Except.ok []) keySelf := by
  cases localAddrs <;> cases keySelf <;>
    simp [getLocalAddrStrings, getPeerId, getSwarmAddresses]

end ipfsHttp

namespace dashboard

/-- Claim C10: `updateResult` is independent of the map iteration
order; its nodes list is the sorted key list (exactly one node per key
when the keys are distinct), and the links are exactly the per-node
target lists laid out contiguously in that sorted node order. -/
theorem updateResult_deterministic (keys1 keys2 : List String) (f : String → List String)
    (hperm : List.Perm keys1 keys2) :
    updateResult keys1 f = updateResult keys2 f
    ∧ List.Sorted (fun a b => a ≤ b) ((updateResult keys1 f).nodes.map Node.id)
    ∧ List.Perm ((updateResult keys1 f).nodes.map Node.id) keys1
    ∧ (keys1.Nodup → ((updateResult keys1 f).nodes.map Node.id).Nodup)
    ∧ (updateResult keys1 f).links =
        ((updateResult keys1 f).nodes.map Node.id).flatMap
          (fun k => (f k).map (fun t => { source := k, target := t })) := by
  have hsort : List.insertionSort (fun a b => a ≤ b) keys1 =
      List.insertionSort (fun a b => a ≤ b) keys2 :=
    List.eq_of_perm_of_sorted
      ((List.perm_insertionSort _ keys1).trans
        (hperm.trans (List.perm_insertionSort _ keys2).symm))
      (List.sorted_insertionSort _ keys1) (List.sorted_insertionSort _ keys2)
  have hcomp : (Node.id ∘ fun k => ({ id := k, group := 0 } : Node)) = id := rfl
  have hnodes : ∀ ks : List String,
      (updateResult ks f).nodes.map Node.id = List.insertionSort (fun a b => a ≤ b) ks := by
    intro ks
    show ((List.insertionSort (fun a b => a ≤ b) ks).map
        (fun k => ({ id := k, group := 0 } : Node))).map Node.id =
      List.insertionSort (fun a b => a ≤ b) ks
    rw [List.map_map, hcomp, List.map_id]
  refine ⟨?_, ?_, ?_, ?_, ?_⟩
  · unfold updateResult
    rw [hsort]
  · rw [hnodes]
    exact List.sorted_insertionSort _ keys1
  · rw [hnodes]
    exact List.perm_insertionSort _ keys1
  · intro hnd
    rw [hnodes]
    exact ((List.perm_insertionSort _ keys1).nodup_iff).mpr hnd
  · rw [hnodes]
    rfl

/-- Witness for claim C10 on the two iteration orders of a concrete
two-key map. -/
theorem updateResult_deterministic_witness :
    List.Perm (["b", "a"] : List String) ["a", "b"]
    ∧ (updateResult ["b", "a"] sampleMap = updateResult ["a", "b"] sampleMap
      ∧ List.Sorted (fun a b => a ≤ b)
          ((updateResult ["b", "a"] sampleMap).nodes.map Node.id)
      ∧ List.Perm ((updateResult ["b", "a"] sampleMap).nodes.map Node.id) ["b", "a"]
      ∧ ((["b", "a"] : List String).Nodup →
          ((updateResult ["b", "a"] sampleMap).nodes.map Node.id).Nodup)
      ∧ (updateResult ["b", "a"] sampleMap).links =
          ((updateResult ["b", "a"] sampleMap).nodes.map Node.id).flatMap
            (fun k => (sampleMap k).map (fun t => { source := k, target := t }))) :=
  ⟨by decide, updateResult_deterministic ["b", "a"] ["a", "b"] sampleMap (by decide)⟩

end dashboard
